import Mathlib

/-!
Verification of the orchestration logic of the Streamlit ReAct PDF chatbot
(src/streamlit_app.py).  Strings are modelled as lists of characters; calls to
the external language model, index, retriever and query engines are modelled as
environment-supplied functions returning an Except value (exception or result).
-/

set_option maxHeartbeats 1000000

namespace AuCL

/-- True when the character is an ASCII Latin letter: the character class
[a-zA-Z] of the detection regex in StreamlitReActChatBot._contains_english. -/
def isLatinLetter (c : Char) : Bool :=
  ('a' ≤ c && c ≤ 'z') || ('A' ≤ c && c ≤ 'Z')

/-- Scans the text accumulating the current run of Latin letters and emitting
each maximal run; mirrors how the regex engine scans the character class. -/
def latinRunsAux : List Char → List Char → List (List Char)
  | [], acc => if acc = [] then [] else [acc]
  | c :: cs, acc =>
    if isLatinLetter c then latinRunsAux cs (acc ++ [c])
    else if acc = [] then latinRunsAux cs []
    else acc :: latinRunsAux cs []

/-- All maximal runs of ASCII Latin letters of the text, in order. -/
def latinRuns (text : List Char) : List (List Char) := latinRunsAux text []

/-- re.findall of the pattern [a-zA-Z]\x7b3,\x7d over the text: the maximal
Latin-letter runs of length at least 3 (a greedy bounded repetition consumes
each whole run, and runs shorter than 3 yield no match). -/
def latin_matches (text : List Char) : List (List Char) :=
  (latinRuns text).filter (fun r => decide (3 ≤ r.length))

/-- The allow-list japanese_exceptions of _contains_english, verbatim. -/
def japanese_exceptions : List (List Char) :=
  ["pdf".data, "PDF".data, "auコマース".data, "au".data, "DC".data, "API".data]

/-- StreamlitReActChatBot._contains_english: true when some maximal run of at
least 3 Latin letters survives filtering by the allow-list. -/
def contains_english (text : List Char) : Bool :=
  decide (0 < ((latin_matches text).filter
    (fun m => !(decide (m ∈ japanese_exceptions)))).length)

/-- Spec-side comparison function for the refinement claim: _contains_english
with the allow-list reduced to the three entries that are themselves possible
matches of the pattern. -/
def contains_english_reduced (text : List Char) : Bool :=
  decide (0 < ((latin_matches text).filter
    (fun m => !(decide (m ∈ ["pdf".data, "PDF".data, "API".data])))).length)

/-- The translate_prompt f-string of _force_japanese_response, with the answer
text interpolated between the fixed prefix and suffix. -/
def translate_prompt (response : List Char) : List Char :=
  ("以下の文章を自然な日本語に変換してください。\n既に日本語の部分はそのまま保持し、英語の部分のみを日本語に変換してください。\n技術用語や固有名詞は適切な日本語表現に置き換えてください。\n\n元の文章:\n").data
    ++ response ++ ("\n\n自然な日本語での表現:").data

/-- Result of the language-conformance filter: the returned text, how many
rewrite completion calls were issued, and whether st.warning was shown. -/
structure FilterOut where
  result : List Char
  rewriteCalls : Nat
  warned : Bool
deriving DecidableEq

/-- StreamlitReActChatBot._force_japanese_response.  The llm argument models
Settings.llm.complete followed by str(...): it returns the stringified
completion or the exception it raised. -/
def force_japanese_response (llm : List Char → Except (List Char) (List Char))
    (response : List Char) : FilterOut :=
  if !(contains_english response) then ⟨response, 0, false⟩
  else
    match llm (translate_prompt response) with
    | .ok r => ⟨r, 1, false⟩
    | .error _ => ⟨response, 1, true⟩

/-- A retrieved node as seen by _get_source_info: the file_name and page_label
entries of its metadata dict (none when the key is absent), and the score
attribute rendered with the three-decimal format when the attribute exists. -/
structure RNode where
  file_name : Option (List Char)
  page_label : Option (List Char)
  score : Option (List Char)
deriving DecidableEq

/-- One line of the citation block, as built in the loop of _get_source_info
for the node of 1-based rank i. -/
def format_node (i : Nat) (node : RNode) : List Char :=
  let file_name := node.file_name.getD ("不明な文書").data
  let page_info := node.page_label.getD []
  let base :=
    if page_info ≠ [] then
      (Nat.repr i).data ++ (". ").data ++ file_name
        ++ (" (ページ: ").data ++ page_info ++ (")").data
    else
      (Nat.repr i).data ++ (". ").data ++ file_name
  match node.score with
  | some sc => base ++ (" - 関連度: ").data ++ sc
  | none => base

/-- The citation lines for the nodes, enumerated from rank i. -/
def format_lines : Nat → List RNode → List (List Char)
  | _, [] => []
  | i, node :: rest => format_node i node :: format_lines (i + 1) rest

/-- External-call environment of one ask_with_react invocation.  Each field
gives the outcome of the corresponding external library call: the agent query,
the construction of the k=5 fallback query engine and its query, the k=3
retriever of _get_source_info, and the rewrite completion of the filter. -/
structure AskEnv where
  agentQueryResult : List Char → Except (List Char) (List Char)
  fallbackEngineResult : Except (List Char) (List Char → Except (List Char) (List Char))
  retrieverResult : List Char → Except (List Char) (List RNode)
  llm : List Char → Except (List Char) (List Char)

/-- StreamlitReActChatBot._get_source_info: retrieval errors are caught and
rendered; zero nodes yield the fixed no-documents message; otherwise the header
line is followed by the newline-joined citation lines enumerated from 1. -/
def get_source_info (env : AskEnv) (question : List Char) : List Char :=
  match env.retrieverResult question with
  | .error e => ("📚 【出典情報取得エラー】").data ++ e
  | .ok nodes =>
    if nodes = [] then ("📚 【出典情報】参考文書が見つかりませんでした。").data
    else ("📚 【参考文書・出典情報】\n").data
      ++ List.intercalate ("\n").data (format_lines 1 nodes)

/-- Opaque handles for the externally constructed objects. -/
abbrev AgentV := Nat

/-- Opaque handle for a built VectorStoreIndex. -/
abbrev IndexV := Nat

/-- Opaque handle for one loaded document record. -/
abbrev Doc := Nat

/-- The mutable attributes of a StreamlitReActChatBot object. -/
structure Bot where
  agent : Option AgentV
  index : Option IndexV
deriving DecidableEq

/-- Result of one question-answering call: the returned string, the number of
engine query calls, rewrite completion calls and retriever calls issued, and
whether the fallback path ran. -/
structure AskOut where
  answer : List Char
  queryCalls : Nat
  llmCalls : Nat
  retrieveCalls : Nat
  usedFallback : Bool
deriving DecidableEq

/-- The AttributeError message raised when as_query_engine is accessed on a
None index inside _fallback_search. -/
def noneTypeAttrError : List Char :=
  ("NoneType object has no attribute as_query_engine").data

/-- StreamlitReActChatBot._fallback_search: everything, the construction of the
k=5 engine included, runs under one try whose except returns the error string;
a successful search is filtered, given sources, and prefixed with the marker. -/
def fallback_search (env : AskEnv) (b : Bot) (question : List Char) : AskOut :=
  match b.index with
  | none => ⟨("❌ 検索エラー: ").data ++ noneTypeAttrError, 0, 0, 0, true⟩
  | some _ =>
    match env.fallbackEngineResult with
    | .error e => ⟨("❌ 検索エラー: ").data ++ e, 0, 0, 0, true⟩
    | .ok engine =>
      match engine question with
      | .error e => ⟨("❌ 検索エラー: ").data ++ e, 1, 0, 0, true⟩
      | .ok resp =>
        let f := force_japanese_response env.llm resp
        let src := get_source_info env question
        ⟨("【直接検索による回答】\n").data ++ f.result ++ ("\n\n").data ++ src,
          1, f.rewriteCalls, 1, true⟩

/-- Bool test for one pattern occurring inside another character list, used for
the iteration-limit signature test on the error text. -/
def starts_with : List Char → List Char → Bool
  | [], _ => true
  | _ :: _, [] => false
  | p :: ps, c :: cs => p = c && starts_with ps cs

/-- Substring occurrence test over character lists. -/
def contains_sub : List Char → List Char → Bool
  | pat, [] => starts_with pat []
  | pat, c :: cs => starts_with pat (c :: cs) || contains_sub pat cs

/-- Python str.endswith over character lists, used for the .pdf filter. -/
def ends_with (pat s : List Char) : Bool := starts_with pat.reverse s.reverse

/-- StreamlitReActChatBot.ask_with_react: without an agent it returns the fixed
instruction string at once; a successful query is filtered and joined with the
citation block; on any exception both the iteration-limit branch and the
generic branch call _fallback_search. -/
def ask_with_react (env : AskEnv) (b : Bot) (question : List Char) : AskOut :=
  match b.agent with
  | none =>
    ⟨("エラー: エージェントが初期化されていません。PDFファイルの読み込みボタンを押してください。").data,
      0, 0, 0, false⟩
  | some _ =>
    match env.agentQueryResult question with
    | .ok resp =>
      let f := force_japanese_response env.llm resp
      let src := get_source_info env question
      ⟨f.result ++ ("\n\n").data ++ src, 1, f.rewriteCalls, 1, false⟩
    | .error e =>
      if contains_sub ("Reached max iterations").data e
          || contains_sub ("max_iterations").data e then
        let fb := fallback_search env b question
        ⟨fb.answer, 1 + fb.queryCalls, fb.llmCalls, fb.retrieveCalls, true⟩
      else
        let fb := fallback_search env b question
        ⟨fb.answer, 1 + fb.queryCalls, fb.llmCalls, fb.retrieveCalls, true⟩

/-- External-call environment of one load_pdfs_with_react invocation:
os.path.exists, os.listdir, SimpleDirectoryReader.load_data,
VectorStoreIndex.from_documents, and the engine construction performed inside
_create_react_agent (as_query_engine, tool and memory creation). -/
structure LoadEnv where
  folderExists : Bool
  dirFiles : List (List Char)
  loadResult : Except (List Char) (List Doc)
  indexResult : Except (List Char) IndexV
  engineResult : Except (List Char) AgentV

/-- Result of load_pdfs_with_react: the updated bot, the returned bool, and
whether some st.error diagnostic was shown. -/
structure LoadOut where
  bot : Bot
  ok : Bool
  diagShown : Bool
deriving DecidableEq

/-- StreamlitReActChatBot._create_react_agent: guarded by the index being set;
any exception while building the engine is caught and reported; on success the
agent attribute is assigned the fresh query engine. -/
def create_react_agent (engineResult : Except (List Char) AgentV) (b : Bot) :
    Bot × Bool :=
  match b.index with
  | none => (b, false)
  | some _ =>
    match engineResult with
    | .error _ => (b, false)
    | .ok eng => ({ b with agent := some eng }, true)

/-- StreamlitReActChatBot.load_pdfs_with_react: checks the folder, filters the
listing for names ending in .pdf, loads the documents, builds and assigns the
index, and delegates to _create_react_agent; every failing branch shows an
st.error diagnostic and returns False. -/
def load_pdfs_with_react (env : LoadEnv) (b : Bot) : LoadOut :=
  if env.folderExists = false then ⟨b, false, true⟩
  else
    let pdf_files := env.dirFiles.filter (fun f => ends_with (".pdf").data f)
    if pdf_files = [] then ⟨b, false, true⟩
    else
      match env.loadResult with
      | .error _ => ⟨b, false, true⟩
      | .ok _docs =>
        match env.indexResult with
        | .error _ => ⟨b, false, true⟩
        | .ok idx =>
          let b1 := { b with index := some idx }
          let res := create_react_agent env.engineResult b1
          if res.2 then ⟨res.1, true, false⟩ else ⟨res.1, false, true⟩

/-- Message role in the Streamlit chat history. -/
inductive Role
  | user
  | assistant
deriving DecidableEq

/-- One entry of st.session_state.messages. -/
structure Turn where
  role : Role
  content : List Char
deriving DecidableEq

/-- The per-browser-session state kept by main in st.session_state: the bot
object, the message history, and the flag gating the chat UI. -/
structure Session where
  bot : Bot
  messages : List Turn
  initialized : Bool
deriving DecidableEq

/-- The session as first created by main: fresh bot, no messages, flag False. -/
def init_session : Session := ⟨⟨none, none⟩, [], false⟩

/-- The initialization button handler of main: only offered while the flag is
False; the flag is set exactly when load_pdfs_with_react returns True, and the
bot keeps whatever attributes the load left behind. -/
def init_button (env : LoadEnv) (s : Session) : Session :=
  if s.initialized then s
  else
    let out := load_pdfs_with_react env s.bot
    if out.ok then { s with bot := out.bot, initialized := true }
    else { s with bot := out.bot }

/-- The chat-input handler of main: appends the user turn, asks the bot, and
appends the assistant turn carrying the returned answer. -/
def submit_action (aenv : AskEnv) (s : Session) (prompt : List Char) : Session :=
  let s1 := { s with messages := s.messages ++ [Turn.mk Role.user prompt] }
  let out := ask_with_react aenv s1.bot prompt
  { s1 with messages := s1.messages ++ [Turn.mk Role.assistant out.answer] }

/-- Duck-typing environment of the history-clear handler: whether accessing
agent.memory raises, which reset-strategy attributes exist, whether calling
reset or clear raises, whether the direct chat_history assignment on the
duck-typed memory object raises, and the outcome of the engine rebuild used as
last resort. -/
structure MemEnv where
  memoryAccessRaises : Bool
  hasReset : Bool
  hasClear : Bool
  hasChatHistory : Bool
  resetRaises : Bool
  clearRaises : Bool
  assignRaises : Bool
  rebuildEngineResult : Except (List Char) AgentV

/-- Which way the clear handler dealt with the agent memory. -/
inductive ResetPath
  | noAgent
  | usedReset
  | usedClear
  | usedHistory
  | rebuiltNoStrategy
  | rebuiltAfterRaise
deriving DecidableEq

/-- The history-clear button handler of main: empties the message list, then,
when an agent exists, probes reset, clear and chat_history in order; when no
strategy applies it rebuilds the engine, and when the probing, the chosen call
or the chat_history assignment raises, the except branch warns and rebuilds
the engine. -/
def clear_action (env : MemEnv) (s : Session) : Session × ResetPath :=
  let s1 := { s with messages := ([] : List Turn) }
  match s1.bot.agent with
  | none => (s1, ResetPath.noAgent)
  | some _ =>
    if env.memoryAccessRaises then
      ({ s1 with bot := (create_react_agent env.rebuildEngineResult s1.bot).1 },
        ResetPath.rebuiltAfterRaise)
    else if env.hasReset then
      if env.resetRaises then
        ({ s1 with bot := (create_react_agent env.rebuildEngineResult s1.bot).1 },
          ResetPath.rebuiltAfterRaise)
      else (s1, ResetPath.usedReset)
    else if env.hasClear then
      if env.clearRaises then
        ({ s1 with bot := (create_react_agent env.rebuildEngineResult s1.bot).1 },
          ResetPath.rebuiltAfterRaise)
      else (s1, ResetPath.usedClear)
    else if env.hasChatHistory then
      if env.assignRaises then
        ({ s1 with bot := (create_react_agent env.rebuildEngineResult s1.bot).1 },
          ResetPath.rebuiltAfterRaise)
      else (s1, ResetPath.usedHistory)
    else
      ({ s1 with bot := (create_react_agent env.rebuildEngineResult s1.bot).1 },
        ResetPath.rebuiltNoStrategy)

/-- The sessions reachable from a fresh page through the handlers of main,
under arbitrary external-call outcomes. -/
inductive Reachable : Session → Prop
  | init : Reachable init_session
  | load (env : LoadEnv) (s : Session) :
      Reachable s → Reachable (init_button env s)
  | ask (aenv : AskEnv) (p : List Char) (s : Session) :
      Reachable s → Reachable (submit_action aenv s p)
  | clear (env : MemEnv) (s : Session) :
      Reachable s → Reachable (clear_action env s).1

/-- A rewrite model call that succeeds with a fixed Japanese completion. -/
def llmOkW : List Char → Except (List Char) (List Char) :=
  fun _ => Except.ok ("こんにちは、承知しました。").data

/-- A rewrite model call that raises. -/
def llmFailW : List Char → Except (List Char) (List Char) :=
  fun _ => Except.error ("接続エラー").data

/-- Concrete retrieved nodes used to evaluate the citation formatting. -/
def nodeW1 : RNode :=
  ⟨some ("給与規程.pdf").data, some ("3").data, some ("0.812").data⟩

/-- A node without page label and without score attribute. -/
def nodeW2 : RNode := ⟨some ("定款.pdf").data, none, none⟩

/-- Concrete ask environment: the primary query raises with the
iteration-limit signature, the fallback engine succeeds. -/
def askEnvW : AskEnv :=
  ⟨fun _ => Except.error ("Reached max iterations").data,
   Except.ok (fun _ => Except.ok ("規程の概要です。").data),
   fun _ => Except.ok [nodeW1, nodeW2],
   llmOkW⟩

/-- Concrete bot with both attributes set. -/
def botW : Bot := ⟨some 1, some 1⟩

/-- Concrete load environment in which every step succeeds but the document
loader returns an empty document list. -/
def envEmptyDocs : LoadEnv :=
  ⟨true, [("a.pdf").data], Except.ok [], Except.ok 5, Except.ok 7⟩

/-- Concrete load environment in which the engine construction inside
_create_react_agent raises after the index was built and assigned. -/
def envEngineFail : LoadEnv :=
  ⟨true, [("a.pdf").data], Except.ok [0], Except.ok 5, Except.error ("boom").data⟩

/-- Concrete load environment in which every step succeeds. -/
def loadEnvW : LoadEnv :=
  ⟨true, [("a.pdf").data], Except.ok [0], Except.ok 5, Except.ok 7⟩

/-- Concrete memory environment: agent.memory exists and has a working reset
method. -/
def menvW : MemEnv := ⟨false, true, false, false, false, false, false, Except.ok 2⟩

/-- Concrete memory environment whose reset method raises when called. -/
def menvRaiseW : MemEnv := ⟨false, true, false, false, true, false, false, Except.ok 2⟩

/-- Concrete Ready session with one prior exchange in the history. -/
def sReadyW : Session :=
  ⟨⟨some 1, some 1⟩,
   [Turn.mk Role.user ("こんにちは").data,
    Turn.mk Role.assistant ("どうぞ").data], true⟩

theorem latinRunsAux_all_latin (cs : List Char) :
    ∀ acc : List Char, (∀ c ∈ acc, isLatinLetter c = true) →
      ∀ r ∈ latinRunsAux cs acc, ∀ c ∈ r, isLatinLetter c = true := by
  induction cs with
  | nil =>
    intro acc hacc r hr
    by_cases h : acc = []
    · simp [latinRunsAux, h] at hr
    · simp [latinRunsAux, h] at hr
      subst hr; exact hacc
  | cons c cs ih =>
    intro acc hacc r hr
    by_cases hl : isLatinLetter c = true
    · have hext : ∀ x ∈ acc ++ [c], isLatinLetter x = true := by
        intro x hx
        rcases List.mem_append.mp hx with h1 | h1
        · exact hacc x h1
        · simp only [List.mem_singleton] at h1; subst h1; exact hl
      have hr2 : r ∈ latinRunsAux cs (acc ++ [c]) := by
        simpa [latinRunsAux, hl] using hr
      exact ih (acc ++ [c]) hext r hr2
    · by_cases he : acc = []
      · have hr2 : r ∈ latinRunsAux cs [] := by
          simpa [latinRunsAux, hl, he] using hr
        exact ih [] (by intro x hx; simp at hx) r hr2
      · have hr2 : r = acc ∨ r ∈ latinRunsAux cs [] := by
          simpa [latinRunsAux, hl, he] using hr
        rcases hr2 with h1 | h1
        · subst h1; exact hacc
        · exact ih [] (by intro x hx; simp at hx) r h1

theorem latin_matches_spec (text m : List Char) (h : m ∈ latin_matches text) :
    3 ≤ m.length ∧ ∀ c ∈ m, isLatinLetter c = true := by
  have h2 := List.mem_filter.mp h
  refine ⟨by simpa using of_decide_eq_true h2.2, ?_⟩
  exact latinRunsAux_all_latin text [] (by intro x hx; simp at hx) m h2.1

theorem filter_eq_of_agree {α : Type} (p q : α → Bool) :
    ∀ l : List α, (∀ x ∈ l, p x = q x) → l.filter p = l.filter q := by
  intro l
  induction l with
  | nil => intro _; rfl
  | cons a l ih =>
    intro h
    have ha : p a = q a := h a (List.mem_cons_self a l)
    have hl : ∀ x ∈ l, p x = q x := fun x hx => h x (List.mem_cons_of_mem a hx)
    simp only [List.filter_cons, ha, ih hl]

theorem mem_exceptions_iff (m : List Char) (hlen : 3 ≤ m.length)
    (hlat : ∀ c ∈ m, isLatinLetter c = true) :
    m ∈ japanese_exceptions ↔ m ∈ [("pdf").data, ("PDF").data, ("API").data] := by
  constructor
  · intro h
    simp only [japanese_exceptions, List.mem_cons, List.not_mem_nil, or_false] at h
    rcases h with h | h | h | h | h | h
    · simp [h]
    · simp [h]
    · exfalso
      subst h
      have hmem : ('コ' : Char) ∈ ("auコマース").data := by decide
      have := hlat 'コ' hmem
      have hfalse : isLatinLetter 'コ' = false := by decide
      simp [hfalse] at this
    · exfalso; subst h; exact absurd hlen (by decide)
    · exfalso; subst h; exact absurd hlen (by decide)
    · simp [h]
  · intro h
    simp only [List.mem_cons, List.not_mem_nil, or_false] at h
    rcases h with h | h | h <;> simp [japanese_exceptions, h]

theorem contains_english_false_of_allowed (text : List Char)
    (h : ∀ m ∈ latin_matches text, m ∈ japanese_exceptions) :
    contains_english text = false := by
  have hfil : (latin_matches text).filter
      (fun m => !(decide (m ∈ japanese_exceptions))) = [] := by
    apply List.filter_eq_nil_iff.mpr
    intro a ha
    simp [h a ha]
  simp [contains_english, hfil]

theorem contains_english_true_of_disallowed (text : List Char)
    (h : ∃ m ∈ latin_matches text, m ∉ japanese_exceptions) :
    contains_english text = true := by
  obtain ⟨m, hm, hnot⟩ := h
  have hmem : m ∈ (latin_matches text).filter
      (fun m => !(decide (m ∈ japanese_exceptions))) :=
    List.mem_filter.mpr ⟨hm, by simp [hnot]⟩
  have hpos : 0 < ((latin_matches text).filter
      (fun m => !(decide (m ∈ japanese_exceptions)))).length :=
    List.length_pos.mpr (List.ne_nil_of_mem hmem)
  simp [contains_english, hpos]

/-- Claim C1: for every answer string in which every maximal run of 3 or more
consecutive ASCII Latin letters exactly equals one of the allow-list entries
(or no such run exists at all), the conformance filter returns the input
unchanged, issues no rewrite model call, and shows no warning. -/
theorem C1_enforce_identity (text : List Char)
    (h : ∀ m ∈ latin_matches text, m ∈ japanese_exceptions) :
    ∀ llm : List Char → Except (List Char) (List Char),
      force_japanese_response llm text = ⟨text, 0, false⟩ := by
  intro llm
  have hce := contains_english_false_of_allowed text h
  simp [force_japanese_response, hce]

/-- Witness for C1 at a text whose only Latin run is the allow-listed PDF. -/
theorem C1_enforce_identity_witness :
    (∀ m ∈ latin_matches ("これはPDFです").data, m ∈ japanese_exceptions)
    ∧ force_japanese_response llmOkW ("これはPDFです").data
      = ⟨("これはPDFです").data, 0, false⟩ :=
  ⟨by decide, C1_enforce_identity ("これはPDFです").data (by decide) llmOkW⟩

/-- Claim C2: for every answer string with at least one maximal Latin run of
length at least 3 outside the allow-list, the filter classifies the text as
non-conformant, the rewrite prompt embeds the original text, and a successful
rewrite call yields exactly one call whose stringified output is returned
without further post-processing. -/
theorem C2_enforce_rewrites (text : List Char)
    (h : ∃ m ∈ latin_matches text, m ∉ japanese_exceptions) :
    contains_english text = true
    ∧ (∃ pre suf, translate_prompt text = pre ++ text ++ suf)
    ∧ ∀ (llm : List Char → Except (List Char) (List Char)) (r : List Char),
        llm (translate_prompt text) = Except.ok r →
        force_japanese_response llm text = ⟨r, 1, false⟩ := by
  have hce := contains_english_true_of_disallowed text h
  refine ⟨hce, ⟨_, _, rfl⟩, ?_⟩
  intro llm r hr
  simp [force_japanese_response, hce, hr]

/-- Witness for C2 at the spec scenario text abc ABC. -/
theorem C2_enforce_rewrites_witness :
    (∃ m ∈ latin_matches ("abc ABC").data, m ∉ japanese_exceptions)
    ∧ (contains_english ("abc ABC").data = true
       ∧ (∃ pre suf, translate_prompt ("abc ABC").data
            = pre ++ ("abc ABC").data ++ suf)
       ∧ ∀ (llm : List Char → Except (List Char) (List Char)) (r : List Char),
           llm (translate_prompt ("abc ABC").data) = Except.ok r →
           force_japanese_response llm ("abc ABC").data = ⟨r, 1, false⟩) :=
  ⟨by decide, C2_enforce_rewrites ("abc ABC").data (by decide)⟩

/-- Claim C3: if the rewrite completion call raises, the filter returns the
original pre-filter text unchanged with one attempted call and a non-fatal
warning; the filter is a total function, so the exception never propagates. -/
theorem C3_rewrite_failure_fallback (text e : List Char)
    (llm : List Char → Except (List Char) (List Char))
    (h1 : contains_english text = true)
    (h2 : llm (translate_prompt text) = Except.error e) :
    force_japanese_response llm text = ⟨text, 1, true⟩ := by
  simp [force_japanese_response, h1, h2]

/-- Witness for C3 at the text abc ABC with a raising rewrite call. -/
theorem C3_rewrite_failure_fallback_witness :
    contains_english ("abc ABC").data = true
    ∧ llmFailW (translate_prompt ("abc ABC").data)
        = Except.error ("接続エラー").data
    ∧ force_japanese_response llmFailW ("abc ABC").data
        = ⟨("abc ABC").data, 1, true⟩ :=
  ⟨by decide, rfl,
    C3_rewrite_failure_fallback ("abc ABC").data ("接続エラー").data llmFailW
      (by decide) rfl⟩

/-- Claim C9: _contains_english is extensionally equal to the same function
with the allow-list reduced to pdf, PDF and API, because au, DC and auコマース
can never equal a maximal match of the pattern; consequently the unlisted case
variants Pdf and api are classified as English. -/
theorem C9_allowlist_reduction :
    (∀ text : List Char, contains_english text = contains_english_reduced text)
    ∧ contains_english ("Pdf").data = true
    ∧ contains_english ("api").data = true := by
  refine ⟨?_, by decide, by decide⟩
  intro text
  have hfil : (latin_matches text).filter
      (fun m => !(decide (m ∈ japanese_exceptions)))
      = (latin_matches text).filter
        (fun m => !(decide (m ∈ [("pdf").data, ("PDF").data, ("API").data]))) := by
    apply filter_eq_of_agree
    intro m hm
    obtain ⟨hlen, hlat⟩ := latin_matches_spec text m hm
    have hiff := mem_exceptions_iff m hlen hlat
    by_cases h : m ∈ japanese_exceptions
    · simp [h, hiff.mp h]
    · have hns : m ∉ [("pdf").data, ("PDF").data, ("API").data] :=
        fun hc => h (hiff.mpr hc)
      simp [h, hns]
  simp only [contains_english, contains_english_reduced, hfil]

theorem format_node_eq (i : Nat) (node : RNode) :
    format_node i node =
      (Nat.repr i).data ++ (". ").data ++ node.file_name.getD ("不明な文書").data
        ++ (if node.page_label.getD [] ≠ [] then
              (" (ページ: ").data ++ node.page_label.getD [] ++ (")").data
            else [])
        ++ (match node.score with
            | some sc => (" - 関連度: ").data ++ sc
            | none => ([] : List Char)) := by
  rcases node with ⟨fn, pl, sc⟩
  by_cases hp : pl.getD [] = []
  · cases sc <;> simp [format_node, hp]
  · cases sc <;> simp [format_node, hp, List.append_assoc]

theorem format_lines_length : ∀ (k : Nat) (ns : List RNode),
    (format_lines k ns).length = ns.length := by
  intro k ns
  induction ns generalizing k with
  | nil => rfl
  | cons n rest ih => simp [format_lines, ih]

theorem format_lines_getElem (ns : List RNode) :
    ∀ (k j : Nat) (node : RNode), ns[j]? = some node →
      (format_lines k ns)[j]? = some (format_node (k + j) node) := by
  induction ns with
  | nil => intro k j node h; simp at h
  | cons n rest ih =>
    intro k j node h
    cases j with
    | zero =>
      simp only [List.getElem?_cons_zero, Option.some.injEq] at h
      subst h
      simp [format_lines]
    | succ j =>
      have h2 : rest[j]? = some node := by simpa using h
      have h3 := ih (k + 1) j node h2
      have harith : k + 1 + j = k + (j + 1) := by omega
      rw [harith] at h3
      simpa [format_lines] using h3

/-- Claim C5: the source attributor returns the fixed no-documents message on
zero retrieved nodes; otherwise a fixed header followed by one line per node,
1-indexed in retrieval order, of the form rank dot name, with the page suffix
exactly when a non-empty page label is present and the three-decimal relevance
suffix exactly when the node carries a score attribute, joined by newlines. -/
theorem C5_source_attribution (env : AskEnv) (q : List Char) (nodes : List RNode)
    (hret : env.retrieverResult q = Except.ok nodes)
    (hk : nodes.length ≤ 3) :
    (nodes = [] →
      get_source_info env q = ("📚 【出典情報】参考文書が見つかりませんでした。").data)
    ∧ (nodes ≠ [] → ∃ lines : List (List Char),
        get_source_info env q
          = ("📚 【参考文書・出典情報】\n").data
              ++ List.intercalate ("\n").data lines
        ∧ lines.length = nodes.length
        ∧ ∀ (j : Nat) (node : RNode), nodes[j]? = some node →
            lines[j]? = some
              ((Nat.repr (j + 1)).data ++ (". ").data
                ++ node.file_name.getD ("不明な文書").data
                ++ (if node.page_label.getD [] ≠ [] then
                      (" (ページ: ").data ++ node.page_label.getD [] ++ (")").data
                    else [])
                ++ (match node.score with
                    | some sc => (" - 関連度: ").data ++ sc
                    | none => ([] : List Char)))) := by
  constructor
  · intro h; subst h; simp [get_source_info, hret]
  · intro h
    refine ⟨format_lines 1 nodes, ?_, format_lines_length 1 nodes, ?_⟩
    · simp [get_source_info, hret, h]
    · intro j node hj
      have h3 := format_lines_getElem nodes 1 j node hj
      have harith : 1 + j = j + 1 := by omega
      rw [harith] at h3
      rw [h3, format_node_eq]

/-- Witness for C5 on a two-node retrieval: one node with page label and score,
one with neither. -/
theorem C5_source_attribution_witness :
    askEnvW.retrieverResult ("質問").data = Except.ok [nodeW1, nodeW2]
    ∧ ([nodeW1, nodeW2] : List RNode).length ≤ 3
    ∧ (([nodeW1, nodeW2] : List RNode) ≠ [] → ∃ lines : List (List Char),
        get_source_info askEnvW ("質問").data
          = ("📚 【参考文書・出典情報】\n").data
              ++ List.intercalate ("\n").data lines
        ∧ lines.length = ([nodeW1, nodeW2] : List RNode).length
        ∧ ∀ (j : Nat) (node : RNode), ([nodeW1, nodeW2] : List RNode)[j]? = some node →
            lines[j]? = some
              ((Nat.repr (j + 1)).data ++ (". ").data
                ++ node.file_name.getD ("不明な文書").data
                ++ (if node.page_label.getD [] ≠ [] then
                      (" (ページ: ").data ++ node.page_label.getD [] ++ (")").data
                    else [])
                ++ (match node.score with
                    | some sc => (" - 関連度: ").data ++ sc
                    | none => ([] : List Char)))) :=
  ⟨rfl, by decide,
    (C5_source_attribution askEnvW ("質問").data [nodeW1, nodeW2] rfl (by decide)).2⟩

/-- Claim C4: whenever the primary query raises, whether or not the error text
matches the iteration-limit signature, ask_with_react routes to the fallback
path and returns its answer; and a successful fallback result carries the
direct-search marker as prefix. -/
theorem C4_fallback_routing (env : AskEnv) (b : Bot) (q : List Char)
    (a : AgentV) (e : List Char)
    (hagent : b.agent = some a)
    (herr : env.agentQueryResult q = Except.error e) :
    (ask_with_react env b q).usedFallback = true
    ∧ (ask_with_react env b q).answer = (fallback_search env b q).answer
    ∧ ∀ (i : IndexV) (engine : List Char → Except (List Char) (List Char))
        (resp : List Char),
        b.index = some i → env.fallbackEngineResult = Except.ok engine →
        engine q = Except.ok resp →
        ∃ rest, (ask_with_react env b q).answer
          = ("【直接検索による回答】").data ++ rest := by
  have hask : ask_with_react env b q =
      ⟨(fallback_search env b q).answer,
        1 + (fallback_search env b q).queryCalls,
        (fallback_search env b q).llmCalls,
        (fallback_search env b q).retrieveCalls, true⟩ := by
    simp [ask_with_react, hagent, herr]
  refine ⟨by rw [hask], by rw [hask], ?_⟩
  intro i engine resp hi heng hresp
  rw [hask]
  simp only [fallback_search, hi, heng, hresp]
  refine ⟨("\n").data ++ (force_japanese_response env.llm resp).result
    ++ ("\n\n").data ++ get_source_info env q, ?_⟩
  have hsplit : ("【直接検索による回答】\n").data
      = ("【直接検索による回答】").data ++ ("\n").data := by decide
  simp [hsplit, List.append_assoc]

/-- Witness for C4 on a primary query raising the iteration-limit error and a
succeeding fallback engine. -/
theorem C4_fallback_routing_witness :
    botW.agent = some 1
    ∧ askEnvW.agentQueryResult ("質問").data
        = Except.error ("Reached max iterations").data
    ∧ ((ask_with_react askEnvW botW ("質問").data).usedFallback = true
       ∧ (ask_with_react askEnvW botW ("質問").data).answer
           = (fallback_search askEnvW botW ("質問").data).answer
       ∧ ∀ (i : IndexV) (engine : List Char → Except (List Char) (List Char))
           (resp : List Char),
           botW.index = some i →
           askEnvW.fallbackEngineResult = Except.ok engine →
           engine ("質問").data = Except.ok resp →
           ∃ rest, (ask_with_react askEnvW botW ("質問").data).answer
             = ("【直接検索による回答】").data ++ rest) :=
  ⟨rfl, rfl,
    C4_fallback_routing askEnvW botW ("質問").data 1
      ("Reached max iterations").data rfl rfl⟩

/-- Claim C7: calling ask_with_react before the agent is built returns the
fixed instruction string telling the user to press the PDF-loading button, and
issues no query, rewrite or retriever call; the function is total, so no
exception propagates. -/
theorem C7_uninitialized_ask (env : AskEnv) (b : Bot) (q : List Char)
    (h : b.agent = none) :
    ask_with_react env b q =
      ⟨("エラー: エージェントが初期化されていません。PDFファイルの読み込みボタンを押してください。").data,
        0, 0, 0, false⟩ := by
  simp [ask_with_react, h]

/-- Witness for C7 on a freshly constructed bot. -/
theorem C7_uninitialized_ask_witness :
    (⟨none, none⟩ : Bot).agent = none
    ∧ ask_with_react askEnvW ⟨none, none⟩ ("質問").data =
      ⟨("エラー: エージェントが初期化されていません。PDFファイルの読み込みボタンを押してください。").data,
        0, 0, 0, false⟩ :=
  ⟨rfl, C7_uninitialized_ask askEnvW ⟨none, none⟩ ("質問").data rfl⟩

theorem load_ok_conditions (env : LoadEnv) (b : Bot)
    (h : (load_pdfs_with_react env b).ok = true) :
    env.folderExists = true
    ∧ env.dirFiles.filter (fun f => ends_with (".pdf").data f) ≠ []
    ∧ (∃ docs, env.loadResult = Except.ok docs)
    ∧ (∃ idx, env.indexResult = Except.ok idx)
    ∧ (∃ eng, env.engineResult = Except.ok eng) := by
  rcases env with ⟨fe, files, lr, ir, er⟩
  cases fe
  · simp [load_pdfs_with_react] at h
  · by_cases hf : files.filter (fun f => ends_with (".pdf").data f) = []
    · simp [load_pdfs_with_react, hf] at h
    · cases lr with
      | error e => simp [load_pdfs_with_react, hf] at h
      | ok docs =>
        cases ir with
        | error e => simp [load_pdfs_with_react, hf] at h
        | ok idx =>
          cases er with
          | error e => simp [load_pdfs_with_react, hf, create_react_agent] at h
          | ok eng =>
            exact ⟨rfl, by simpa using hf, ⟨docs, rfl⟩, ⟨idx, rfl⟩, ⟨eng, rfl⟩⟩

theorem load_fail_diag (env : LoadEnv) (b : Bot)
    (h : (load_pdfs_with_react env b).ok = false) :
    (load_pdfs_with_react env b).diagShown = true := by
  rcases env with ⟨fe, files, lr, ir, er⟩
  cases fe
  · simp [load_pdfs_with_react]
  · by_cases hf : files.filter (fun f => ends_with (".pdf").data f) = []
    · simp [load_pdfs_with_react, hf]
    · cases lr with
      | error e => simp [load_pdfs_with_react, hf]
      | ok docs =>
        cases ir with
        | error e => simp [load_pdfs_with_react, hf]
        | ok idx =>
          cases er with
          | error e => simp [load_pdfs_with_react, hf, create_react_agent]
          | ok eng => simp [load_pdfs_with_react, hf, create_react_agent] at h

theorem load_nofiles (env : LoadEnv) (b : Bot)
    (hf : env.dirFiles.filter (fun f => ends_with (".pdf").data f) = []) :
    load_pdfs_with_react env b = ⟨b, false, true⟩ := by
  rcases env with ⟨fe, files, lr, ir, er⟩
  cases fe <;> simp_all [load_pdfs_with_react]

theorem init_button_flag (env : LoadEnv) (s : Session)
    (h : s.initialized = false) :
    (init_button env s).initialized = (load_pdfs_with_react env s.bot).ok
    ∧ (init_button env s).bot = (load_pdfs_with_react env s.bot).bot := by
  by_cases ho : (load_pdfs_with_react env s.bot).ok = true
  · simp [init_button, h, ho]
  · have ho2 : (load_pdfs_with_react env s.bot).ok = false := by simpa using ho
    simp [init_button, h, ho2]

/-- Claim C6 (amended): the session reaches Ready only when the folder exists,
at least one .pdf file is listed, document loading raises no exception, and the
index and engine constructions succeed — the code does not require a non-empty
loaded-document list; on any failure the initialized flag stays False and a
diagnostic is shown; with zero matching files the session is left fully
unchanged, so no index is constructed; however, when the engine construction
fails after the index build, the built index is retained as partial state. -/
theorem C6_init_transition (env : LoadEnv) (s : Session)
    (h : s.initialized = false) :
    ((init_button env s).initialized = true →
       env.folderExists = true
       ∧ env.dirFiles.filter (fun f => ends_with (".pdf").data f) ≠ []
       ∧ (∃ docs, env.loadResult = Except.ok docs)
       ∧ (∃ idx, env.indexResult = Except.ok idx)
       ∧ (∃ eng, env.engineResult = Except.ok eng))
    ∧ ((load_pdfs_with_react env s.bot).ok = false →
         (init_button env s).initialized = false
         ∧ (load_pdfs_with_react env s.bot).diagShown = true)
    ∧ (env.dirFiles.filter (fun f => ends_with (".pdf").data f) = [] →
         init_button env s = s) := by
  obtain ⟨hflag, hbot⟩ := init_button_flag env s h
  refine ⟨?_, ?_, ?_⟩
  · intro hinit
    exact load_ok_conditions env s.bot (by rw [← hflag]; exact hinit)
  · intro hok
    exact ⟨by rw [hflag, hok], load_fail_diag env s.bot hok⟩
  · intro hf
    have hload := load_nofiles env s.bot hf
    cases s with
    | mk b msgs flag =>
      simp only at h
      simp [init_button, h, hload]

/-- Counterexample to claim C6 as stated: with one .pdf file present, a loader
returning an empty document list still reaches Ready, so at least one loaded
document is not necessary; and when the engine construction fails after the
index was built, initialization fails but the bot retains the index, so
partial state is retained. -/
theorem C6_init_transition_counterexample :
    ((init_button envEmptyDocs init_session).initialized = true
      ∧ envEmptyDocs.loadResult = Except.ok ([] : List Doc))
    ∧ ((init_button envEngineFail init_session).initialized = false
      ∧ (init_button envEngineFail init_session).bot.index = some 5
      ∧ init_session.bot.index = none) := by
  refine ⟨⟨by decide, rfl⟩, by decide, by decide, rfl⟩

/-- Witness for the amended C6 at the engine-failure environment. -/
theorem C6_init_transition_witness :
    init_session.initialized = false
    ∧ ((load_pdfs_with_react envEngineFail init_session.bot).ok = false →
        (init_button envEngineFail init_session).initialized = false
        ∧ (load_pdfs_with_react envEngineFail init_session.bot).diagShown = true) :=
  ⟨rfl, (C6_init_transition envEngineFail init_session rfl).2.1⟩

theorem clear_action_fst (menv : MemEnv) (s : Session) :
    (clear_action menv s).1.messages = []
    ∧ (clear_action menv s).1.initialized = s.initialized := by
  rcases s with ⟨⟨ag, ix⟩, msgs, flag⟩
  cases ag with
  | none => simp [clear_action]
  | some a =>
    rcases menv with ⟨mar, hr1, hc1, hh1, rr1, cr1, ar1, re⟩
    cases mar <;> cases hr1 <;> cases hc1 <;> cases hh1 <;> cases rr1 <;>
      cases cr1 <;> cases ar1 <;> simp [clear_action]

theorem create_agent_index (r : Except (List Char) AgentV) (b : Bot) :
    ((create_react_agent r b).1).index = b.index := by
  rcases b with ⟨ag, ix⟩
  cases ix <;> cases r <;> simp [create_react_agent]

theorem clear_action_bot_index (menv : MemEnv) (s : Session) :
    (((clear_action menv s).1).bot).index = s.bot.index := by
  rcases s with ⟨⟨ag, ix⟩, msgs, flag⟩
  cases ag with
  | none => simp [clear_action]
  | some a =>
    rcases menv with ⟨mar, hr1, hc1, hh1, rr1, cr1, ar1, re⟩
    cases mar <;> cases hr1 <;> cases hc1 <;> cases hh1 <;> cases rr1 <;>
      cases cr1 <;> cases ar1 <;> simp [clear_action, create_agent_index]

/-- Claim C8: the history-clear action empties the message sequence, leaves
the Ready flag unchanged, probes the reset strategies in their code order with
the engine rebuild as fallback when no strategy applies, when the memory
probing raises, or when the chosen reset call, clear call or chat_history
assignment raises, and a subsequent submit starts the new sequence from one
user entry. -/
theorem C8_clear_history (menv : MemEnv) (aenv : AskEnv) (s : Session)
    (h : s.initialized = true) :
    (clear_action menv s).1.messages = []
    ∧ (clear_action menv s).1.initialized = true
    ∧ (s.bot.agent = none → (clear_action menv s).2 = ResetPath.noAgent)
    ∧ (∀ a : AgentV, s.bot.agent = some a →
        ((menv.memoryAccessRaises = false ∧ menv.hasReset = true
            ∧ menv.resetRaises = false) →
          (clear_action menv s).2 = ResetPath.usedReset)
        ∧ ((menv.memoryAccessRaises = false ∧ menv.hasReset = false
            ∧ menv.hasClear = true ∧ menv.clearRaises = false) →
          (clear_action menv s).2 = ResetPath.usedClear)
        ∧ ((menv.memoryAccessRaises = false ∧ menv.hasReset = false
            ∧ menv.hasClear = false ∧ menv.hasChatHistory = true
            ∧ menv.assignRaises = false) →
          (clear_action menv s).2 = ResetPath.usedHistory)
        ∧ ((menv.hasReset = false ∧ menv.hasClear = false
            ∧ menv.hasChatHistory = false) →
          (clear_action menv s).2 = ResetPath.rebuiltNoStrategy
          ∨ (clear_action menv s).2 = ResetPath.rebuiltAfterRaise)
        ∧ (menv.memoryAccessRaises = true →
          (clear_action menv s).2 = ResetPath.rebuiltAfterRaise)
        ∧ ((menv.memoryAccessRaises = false ∧ menv.hasReset = true
            ∧ menv.resetRaises = true) →
          (clear_action menv s).2 = ResetPath.rebuiltAfterRaise)
        ∧ ((menv.memoryAccessRaises = false ∧ menv.hasReset = false
            ∧ menv.hasClear = true ∧ menv.clearRaises = true) →
          (clear_action menv s).2 = ResetPath.rebuiltAfterRaise)
        ∧ ((menv.memoryAccessRaises = false ∧ menv.hasReset = false
            ∧ menv.hasClear = false ∧ menv.hasChatHistory = true
            ∧ menv.assignRaises = true) →
          (clear_action menv s).2 = ResetPath.rebuiltAfterRaise))
    ∧ (∀ p : List Char,
        (submit_action aenv (clear_action menv s).1 p).messages
          = [Turn.mk Role.user p,
             Turn.mk Role.assistant
               (ask_with_react aenv (clear_action menv s).1.bot p).answer]) := by
  obtain ⟨hmsg, hinit⟩ := clear_action_fst menv s
  refine ⟨hmsg, by rw [hinit, h], ?_, ?_, ?_⟩
  · intro hag
    rcases s with ⟨⟨ag, ix⟩, msgs, flag⟩
    simp only at hag
    subst hag
    simp [clear_action]
  · intro a hag
    rcases s with ⟨⟨ag, ix⟩, msgs, flag⟩
    simp only at hag
    subst hag
    rcases menv with ⟨mar, hr1, hc1, hh1, rr1, cr1, ar1, re⟩
    refine ⟨?_, ?_, ?_, ?_, ?_, ?_, ?_, ?_⟩
    · rintro ⟨h1, h2, h3⟩
      simp only at h1 h2 h3
      subst h1; subst h2; subst h3
      simp [clear_action]
    · rintro ⟨h1, h2, h3, h4⟩
      simp only at h1 h2 h3 h4
      subst h1; subst h2; subst h3; subst h4
      simp [clear_action]
    · rintro ⟨h1, h2, h3, h4, h5⟩
      simp only at h1 h2 h3 h4 h5
      subst h1; subst h2; subst h3; subst h4; subst h5
      simp [clear_action]
    · rintro ⟨h1, h2, h3⟩
      simp only at h1 h2 h3
      subst h1; subst h2; subst h3
      cases mar <;> simp [clear_action]
    · intro h1
      simp only at h1
      subst h1
      simp [clear_action]
    · rintro ⟨h1, h2, h3⟩
      simp only at h1 h2 h3
      subst h1; subst h2; subst h3
      simp [clear_action]
    · rintro ⟨h1, h2, h3, h4⟩
      simp only at h1 h2 h3 h4
      subst h1; subst h2; subst h3; subst h4
      simp [clear_action]
    · rintro ⟨h1, h2, h3, h4, h5⟩
      simp only at h1 h2 h3 h4 h5
      subst h1; subst h2; subst h3; subst h4; subst h5
      simp [clear_action]
  · intro p
    simp [submit_action, hmsg]

/-- Witness for C8: a Ready session with history, a memory carrying a working
reset method, a memory whose reset call raises and triggers the rebuild, and a
subsequent submit. -/
theorem C8_clear_history_witness :
    sReadyW.initialized = true
    ∧ (clear_action menvW sReadyW).1.messages = []
    ∧ (clear_action menvW sReadyW).2 = ResetPath.usedReset
    ∧ (clear_action menvRaiseW sReadyW).2 = ResetPath.rebuiltAfterRaise
    ∧ (submit_action askEnvW (clear_action menvW sReadyW).1
        ("次の質問").data).messages
        = [Turn.mk Role.user ("次の質問").data,
           Turn.mk Role.assistant
             (ask_with_react askEnvW (clear_action menvW sReadyW).1.bot
               ("次の質問").data).answer] :=
  ⟨rfl,
   (C8_clear_history menvW askEnvW sReadyW rfl).1,
   (((C8_clear_history menvW askEnvW sReadyW rfl).2.2.2.1) 1 rfl).1 ⟨rfl, rfl, rfl⟩,
   (((C8_clear_history menvRaiseW askEnvW sReadyW rfl).2.2.2.1) 1
       rfl).2.2.2.2.2.1 ⟨rfl, rfl, rfl⟩,
   ((C8_clear_history menvW askEnvW sReadyW rfl).2.2.2.2) ("次の質問").data⟩

theorem create_agent_inv (r : Except (List Char) AgentV) (b : Bot)
    (hb : b.agent.isSome = true → b.index.isSome = true) :
    ((create_react_agent r b).1).agent.isSome = true →
      ((create_react_agent r b).1).index.isSome = true := by
  rcases b with ⟨ag, ix⟩
  cases ix with
  | none => simpa [create_react_agent] using hb
  | some i => cases r <;> simp [create_react_agent]

theorem load_pdfs_inv (env : LoadEnv) (b : Bot)
    (hb : b.agent.isSome = true → b.index.isSome = true) :
    ((load_pdfs_with_react env b).bot).agent.isSome = true →
      ((load_pdfs_with_react env b).bot).index.isSome = true := by
  rcases env with ⟨fe, files, lr, ir, er⟩
  cases fe
  · simpa [load_pdfs_with_react] using hb
  · by_cases hf : files.filter (fun f => ends_with (".pdf").data f) = []
    · simpa [load_pdfs_with_react, hf] using hb
    · cases lr with
      | error e => simpa [load_pdfs_with_react, hf] using hb
      | ok docs =>
        cases ir with
        | error e => simpa [load_pdfs_with_react, hf] using hb
        | ok idx =>
          cases er <;> simp [load_pdfs_with_react, hf, create_react_agent]

theorem init_button_inv (env : LoadEnv) (s : Session)
    (hb : s.bot.agent.isSome = true → s.bot.index.isSome = true) :
    ((init_button env s).bot).agent.isSome = true →
      ((init_button env s).bot).index.isSome = true := by
  by_cases h : s.initialized = true
  · simpa [init_button, h] using hb
  · have h2 : s.initialized = false := by simpa using h
    have hload := load_pdfs_inv env s.bot hb
    by_cases ho : (load_pdfs_with_react env s.bot).ok = true
    · simpa [init_button, h2, ho] using hload
    · have ho2 : (load_pdfs_with_react env s.bot).ok = false := by simpa using ho
      simpa [init_button, h2, ho2] using hload

theorem submit_action_bot (aenv : AskEnv) (s : Session) (p : List Char) :
    (submit_action aenv s p).bot = s.bot := rfl

theorem clear_action_inv (menv : MemEnv) (s : Session)
    (hb : s.bot.agent.isSome = true → s.bot.index.isSome = true) :
    (((clear_action menv s).1).bot).agent.isSome = true →
      (((clear_action menv s).1).bot).index.isSome = true := by
  cases hag : s.bot.agent with
  | none =>
    have hbot : ((clear_action menv s).1).bot = s.bot := by
      rcases s with ⟨⟨ag, ix⟩, msgs, flag⟩
      simp only at hag
      subst hag
      simp [clear_action]
    rw [hbot]; exact hb
  | some a =>
    have hix := hb (by simp [hag])
    intro _
    rw [clear_action_bot_index]
    exact hix

/-- Claim C10: in every reachable session state, the agent attribute being set
implies the index attribute is set; consequently _fallback_search, which runs
only when the agent exists, never accesses as_query_engine on a None index. -/
theorem C10_agent_index_invariant (s : Session) (h : Reachable s) :
    s.bot.agent.isSome = true → ∃ idx : IndexV, s.bot.index = some idx := by
  have main : s.bot.agent.isSome = true → s.bot.index.isSome = true := by
    induction h with
    | init => simp [init_session]
    | load env s1 h1 ih => exact init_button_inv env s1 ih
    | ask aenv p s1 h1 ih => rw [submit_action_bot]; exact ih
    | clear env s1 h1 ih => exact clear_action_inv env s1 ih
  intro hag
  exact Option.isSome_iff_exists.mp (main hag)

/-- Witness for C10: the state reached by one successful initialization has
the agent set, and the invariant yields its index. -/
theorem C10_agent_index_invariant_witness :
    (init_button loadEnvW init_session).bot.agent.isSome = true
    ∧ ∃ idx : IndexV, (init_button loadEnvW init_session).bot.index = some idx :=
  ⟨by decide,
    C10_agent_index_invariant (init_button loadEnvW init_session)
      (Reachable.load loadEnvW init_session Reachable.init) (by decide)⟩

end AuCL
